import Mathlib

/-!
Verification of the healthcare account-management backend
(accounts/models.py, accounts/serializers.py, accounts/views.py,
core/models.py) against its natural-language specification.

The Django storage is embedded as an explicit state record `DB`; each model
table is a list of rows kept newest-first (primary keys are allocated from a
monotone counter `nextId`, and `created_at` grows with it, so the stored order
coincides with the `order_by('-created_at')` order used by every view).
View/serializer operations are state-passing functions that return the API
outcome together with the post-state; a failure outcome always carries the
unchanged pre-state.
-/

namespace Healthcare

/-- `accounts.models.UserRole` (admin / doctor / patient). -/
inductive Role where
  | admin
  | doctor
  | patient
deriving DecidableEq

/-- Error taxonomy of the view/serializer layer (spec section 7). -/
inductive ApiError where
  /-- 400 `VALIDATION_ERROR`: malformed or missing input. -/
  | validationError
  /-- serializer message "Selected user is not a patient/doctor". -/
  | roleMismatch
  /-- uniqueness violation reported by a serializer pre-check
      (duplicate email / license / active assignment). -/
  | conflict
  /-- 403 `PERMISSION_DENIED`. -/
  | forbidden
  /-- 404: absent, or filtered out of the actor's visible queryset. -/
  | notFound
  /-- storage-level uniqueness violation that bypassed the serializer
      pre-check (Django `IntegrityError`, surfaced as a 500). -/
  | integrityError
deriving DecidableEq

/-- A row of the `users` table (`accounts.models.User`).  `password` stands
for the stored password hash; verification compares it for equality, which is
the shallow embedding of `check_password`. -/
structure UserRec where
  uid : Nat
  email : String
  name : String
  password : String
  phone : Option String := none
  date_of_birth : Option String := none
  gender : Option String := none
  address : Option String := none
  role : Role
  is_active : Bool := true
  is_staff : Bool := false
deriving DecidableEq

/-- A row of `doctor_profiles` (`accounts.models.DoctorProfile`). -/
structure DoctorProfile where
  id : Nat
  userId : Nat
  specialization : String
  license_number : String
  experience_years : Nat := 0
  is_available : Bool := true
  is_active : Bool := true
  created_by : Option Nat
deriving DecidableEq

/-- A row of `patient_profiles` (`accounts.models.PatientProfile`). -/
structure PatientProfile where
  id : Nat
  userId : Nat
  blood_group : Option String := none
  medical_history : Option String := none
  emergency_contact : Option String := none
  allergies : Option String := none
  is_active : Bool := true
  created_by : Option Nat
deriving DecidableEq

/-- A row of `patient_doctor_assignments`
(`accounts.models.PatientDoctorAssignment`).  `patient` and `doctor` hold the
referenced users' primary keys. -/
structure Assignment where
  id : Nat
  patient : Nat
  doctor : Nat
  notes : Option String := none
  assigned_date : Nat
  is_active : Bool := true
  created_by : Option Nat
deriving DecidableEq

/-- The persistent store.  Row lists are kept newest-first; `nextId` is the
next free primary key, `today` the current date used for
`assigned_date = auto_now_add`. -/
structure DB where
  users : List UserRec
  doctors : List DoctorProfile
  patients : List PatientProfile
  assignments : List Assignment
  nextId : Nat
  today : Nat
deriving DecidableEq

/-- Python `str.lower()` (the string library's own `toLower` is opaque to the
kernel, so we map over the character list). -/
def toLowerStr (s : String) : String := ⟨s.data.map Char.toLower⟩

/-- Python `str.upper()`. -/
def toUpperStr (s : String) : String := ⟨s.data.map Char.toUpper⟩

/-- Python `str.strip()`: drop leading and trailing whitespace. -/
def stripStr (s : String) : String :=
  ⟨((s.data.dropWhile Char.isWhitespace).reverse.dropWhile Char.isWhitespace).reverse⟩

/-- Python `str.split()` with no argument: the whitespace-separated words. -/
def wordsOf : List Char → List Char → List (List Char)
  | [], acc => if acc.isEmpty then [] else [acc.reverse]
  | c :: cs, acc =>
      if c.isWhitespace then
        if acc.isEmpty then wordsOf cs [] else acc.reverse :: wordsOf cs []
      else wordsOf cs (c :: acc)

/-- `' '.join(words)`. -/
def joinSpace : List (List Char) → List Char
  | [] => []
  | [w] => w
  | w :: ws => w ++ ' ' :: joinSpace ws

/-- Email normalization: `UserManager.create_user` lowercases via
`normalize_email(...).lower()` and `User.save` applies `.lower().strip()`. -/
def normEmail (s : String) : String := stripStr (toLowerStr s)

/-- Name normalization of `User.save`:
`' '.join(self.name.strip().split())` — collapse all whitespace runs. -/
def normName (s : String) : String := ⟨joinSpace (wordsOf s.data [])⟩

/-- Primary-key lookup on the `users` table (the default `User.objects`
manager has no `is_active` filter). -/
def findUser (db : DB) (uid : Nat) : Option UserRec :=
  db.users.find? (fun u => u.uid == uid)

/--
`UserRegistrationSerializer.create` together with
`UserManager.create_user`: reject empty email/name and duplicate email,
normalize, persist the user, and—only when `role = patient`—auto-create a
`PatientProfile` with `user = created_by = the new user`, all inside one
`transaction.atomic`.  Returns `none` on validation failure.
-/
def register (db : DB) (email name password : String)
    (phone dob gender address : Option String) (role : Role) :
    Option (UserRec × DB) :=
  if email == "" || name == "" then none
  else if db.users.any (fun u => u.email == normEmail email) then none
  else
    let u : UserRec :=
      { uid := db.nextId, email := normEmail email, name := normName name,
        password := password, phone := phone, date_of_birth := dob,
        gender := gender, address := address, role := role,
        is_active := true, is_staff := false }
    let db1 : DB := { db with users := u :: db.users, nextId := db.nextId + 1 }
    match role with
    | .patient =>
        let pp : PatientProfile :=
          { id := db1.nextId, userId := u.uid, created_by := some u.uid }
        some (u, { db1 with patients := pp :: db1.patients, nextId := db1.nextId + 1 })
    | _ => some (u, db1)

/-- A concrete empty store used to exercise the theorems. -/
def regDb0 : DB :=
  { users := [], doctors := [], patients := [], assignments := [], nextId := 0, today := 0 }

/-- The user produced by registering "a@x.com" / "Jane Doe" on `regDb0`. -/
def regU0 : UserRec :=
  { uid := 0, email := "a@x.com", name := "Jane Doe", password := "pw12345",
    role := Role.patient }

/-- The store after that registration. -/
def regDb1 : DB :=
  { users := [regU0], doctors := [],
    patients := [{ id := 1, userId := 0, created_by := some 0 }],
    assignments := [], nextId := 2, today := 0 }

/--
**C2.**  For every valid registration with role=Patient, exactly one
`PatientProfile` is created, with `user` and `created_by` both the newly
registered user; for role=Doctor or role=Admin no profile record of any kind
is created (doctor and patient profile tables are untouched).
-/
theorem C2_registration_profiles (db : DB) (email name password : String)
    (phone dob gender address : Option String) :
    (∀ u db', register db email name password phone dob gender address Role.patient
        = some (u, db') →
      (∃ pp, db'.patients = pp :: db.patients ∧ pp.userId = u.uid ∧
        pp.created_by = some u.uid ∧ pp.is_active = true) ∧
      db'.doctors = db.doctors) ∧
    (∀ role u db', (role = Role.doctor ∨ role = Role.admin) →
      register db email name password phone dob gender address role = some (u, db') →
      db'.patients = db.patients ∧ db'.doctors = db.doctors) := by
  constructor
  · intro u db' h
    unfold register at h
    split at h
    · exact absurd h (by simp)
    · split at h
      · exact absurd h (by simp)
      · simp only [Option.some.injEq, Prod.mk.injEq] at h
        obtain ⟨hu, hdb⟩ := h
        subst hdb
        refine ⟨⟨_, rfl, ?_, ?_, rfl⟩, rfl⟩ <;> simp [← hu]
  · intro role u db' hrole h
    unfold register at h
    split at h
    · exact absurd h (by simp)
    · split at h
      · exact absurd h (by simp)
      · rcases hrole with hrole | hrole <;> subst hrole <;>
          simp only [Option.some.injEq, Prod.mk.injEq] at h <;>
          obtain ⟨hu, hdb⟩ := h <;> subst hdb <;> exact ⟨rfl, rfl⟩

/-- Witness for C2 at a concrete input: registering Jane Doe as a patient on
the empty store creates exactly her profile. -/
theorem C2_registration_profiles_witness :
    (∃ pp, regDb1.patients = pp :: regDb0.patients ∧ pp.userId = regU0.uid ∧
      pp.created_by = some regU0.uid ∧ pp.is_active = true) ∧
    regDb1.doctors = regDb0.doctors :=
  (C2_registration_profiles regDb0 "a@x.com" "Jane Doe" "pw12345"
      none none none none).1 regU0 regDb1 (by decide)

/-! ## Assignment Ledger -/

/-- Is there an active assignment row for the exact (patient, doctor) pair?
This is both the condition of the serializer pre-check
(`AssignmentCreateSerializer.validate`) and of the storage constraint
`unique_active_patient_doctor_assignment`. -/
def activePairExists (db : DB) (p d : Nat) : Bool :=
  db.assignments.any (fun a => a.patient == p && a.doctor == d && a.is_active)

/-- Storage-layer insert through the partial unique constraint
`UniqueConstraint(fields=['patient','doctor'], condition=Q(is_active=True))`
declared in `PatientDoctorAssignment.Meta`: the insert is refused (`none`)
whenever it would create a second active row for the pair, independently of
any application-level pre-check. -/
def dbInsertAssignment (db : DB) (row : Assignment) : Option DB :=
  if row.is_active && activePairExists db row.patient row.doctor then none
  else some { db with assignments := row :: db.assignments, nextId := db.nextId + 1 }

/-- The row `serializer.save(created_by=request.user)` builds: fresh primary
key, `assigned_date` from `auto_now_add`, active, `created_by = actor`. -/
def newAssignmentRow (db : DB) (actor pId dId : Nat) (notes : Option String) :
    Assignment :=
  { id := db.nextId, patient := pId, doctor := dId, notes := notes,
    assigned_date := db.today, is_active := true, created_by := some actor }

/--
`AssignmentViewSet.create` with `AssignmentCreateSerializer`:
resolve both user ids (any user; `User.objects` has no active filter), check
`role = patient` / `role = doctor` (field validators), check no active
assignment for the pair (object-level `validate`), then insert the new row
through the storage constraint.  Failures return the unchanged store.
-/
def assign (db : DB) (actor pId dId : Nat) (notes : Option String) :
    Except ApiError Assignment × DB :=
  match findUser db pId, findUser db dId with
  | some pu, some du =>
    if pu.role = Role.patient then
      if du.role = Role.doctor then
        if activePairExists db pId dId then (.error .conflict, db)
        else
          match dbInsertAssignment db (newAssignmentRow db actor pId dId notes) with
          | some db' => (.ok (newAssignmentRow db actor pId dId notes), db')
          | none => (.error .integrityError, db)
      else (.error .roleMismatch, db)
    else (.error .roleMismatch, db)
  | _, _ => (.error .validationError, db)

/-- `get_object` of `AssignmentViewSet`: pk lookup through `get_queryset`,
which filters `is_active=True`. -/
def activeAssignmentById (db : DB) (aid : Nat) : Option Assignment :=
  db.assignments.find? (fun a => a.is_active && a.id == aid)

/-- A PUT/PATCH body for a mapping: which keys are present in
`request.data`.  `notes = some v` means the key `notes` is present with value
`v` (possibly null). -/
structure MappingRequest where
  patient : Option Nat := none
  doctor : Option Nat := none
  notes : Option (Option String) := none
  assigned_date : Option Nat := none
deriving DecidableEq

/-- `AssignmentViewSet.update`: only the creator may update, and only the
`notes` key of the request body is ever applied
(`if 'notes' in request.data: assignment.notes = request.data['notes']`). -/
def updateMapping (db : DB) (actor aid : Nat) (req : MappingRequest) :
    Except ApiError Assignment × DB :=
  match activeAssignmentById db aid with
  | none => (.error .notFound, db)
  | some a =>
    if a.created_by == some actor then
      match req.notes with
      | some n =>
          (.ok { a with notes := n },
            { db with assignments :=
                db.assignments.map (fun b => if b.id == aid then { b with notes := n } else b) })
      | none => (.ok a, db)
    else (.error .forbidden, db)

/-- `AssignmentViewSet.partial_update` simply delegates to `update`. -/
def updateMappingPartial (db : DB) (actor aid : Nat) (req : MappingRequest) :
    Except ApiError Assignment × DB :=
  updateMapping db actor aid req

/-- `AssignmentViewSet.destroy`: only the creator may soft-delete; on success
the row's `is_active` is cleared (`AbstractActive.soft_delete`). -/
def unassign (db : DB) (actor aid : Nat) : Except ApiError Unit × DB :=
  match activeAssignmentById db aid with
  | none => (.error .notFound, db)
  | some a =>
    if a.created_by == some actor then
      (.ok (),
        { db with assignments :=
            db.assignments.map (fun b => if b.id == aid then { b with is_active := false } else b) })
    else (.error .forbidden, db)

/-- `AssignmentViewSet.patient_mappings` (GET /mappings/patient/{id}/):
404 unless the id resolves to an active user with role patient
(`get_object_or_404(User, pk, role=PATIENT, is_active=True)`), then the
active assignments for that patient. -/
def listForPatient (db : DB) (pid : Nat) : Except ApiError (List Assignment) :=
  match db.users.find?
      (fun u => u.uid == pid && (decide (u.role = Role.patient) && u.is_active)) with
  | none => .error .notFound
  | some _ => .ok (db.assignments.filter (fun a => a.is_active && a.patient == pid))

/-- Number of active assignment rows for a given (patient, doctor) pair. -/
def pairCount (db : DB) (p d : Nat) : Nat :=
  db.assignments.countP (fun a => a.patient == p && a.doctor == d && a.is_active)

/-- The ledger invariant: at most one active row per (patient, doctor) pair. -/
def PairInvariant (db : DB) : Prop := ∀ p d, pairCount db p d ≤ 1

theorem pairCount_eq_zero_of_not_exists {db : DB} {p d : Nat}
    (h : activePairExists db p d = false) : pairCount db p d = 0 := by
  unfold activePairExists at h
  unfold pairCount
  rw [List.countP_eq_zero]
  intro a ha
  rw [List.any_eq_false] at h
  exact h a ha

theorem countP_map_eq {α : Type} (l : List α) (f : α → α) (p : α → Bool)
    (h : ∀ a, p (f a) = p a) : (l.map f).countP p = l.countP p := by
  induction l with
  | nil => rfl
  | cons x xs ih => simp [List.countP_cons, ih, h]

theorem countP_map_le {α : Type} (l : List α) (f : α → α) (p : α → Bool)
    (h : ∀ a, p (f a) = true → p a = true) :
    (l.map f).countP p ≤ l.countP p := by
  induction l with
  | nil => simp
  | cons x xs ih =>
    simp only [List.map_cons, List.countP_cons]
    by_cases hfx : p (f x) = true
    · rw [if_pos hfx, if_pos (h x hfx)]
      omega
    · rw [if_neg hfx]
      by_cases hx : p x = true
      · rw [if_pos hx]; omega
      · rw [if_neg hx]; omega

theorem dbInsert_preserves_inv {db : DB} (h : PairInvariant db)
    {row : Assignment} {db' : DB}
    (hins : dbInsertAssignment db row = some db') : PairInvariant db' := by
  unfold dbInsertAssignment at hins
  split at hins
  · exact absurd hins (by simp)
  · rename_i hcond
    simp only [Option.some.injEq] at hins
    subst hins
    intro p d
    unfold pairCount
    simp only [List.countP_cons]
    by_cases hrow : (row.patient == p && row.doctor == d && row.is_active) = true
    · simp only [hrow, if_true]
      simp only [Bool.and_eq_true, beq_iff_eq] at hrow
      obtain ⟨⟨hp, hd⟩, hact⟩ := hrow
      have hnex : activePairExists db row.patient row.doctor = false := by
        cases hex : activePairExists db row.patient row.doctor
        · rfl
        · exact absurd (by simp [hact, hex]) hcond
      subst hp hd
      have := pairCount_eq_zero_of_not_exists hnex
      unfold pairCount at this
      omega
    · rw [if_neg hrow]
      have := h p d
      unfold pairCount at this
      omega

/--
**C1.**  At most one `PatientDoctorAssignment` row is active per
(patient, doctor) pair: the storage-layer insert (the partial unique
constraint of the model's `Meta`) only ever admits an active row when no
active row for the pair exists—independently of the serializer pre-check—and
the invariant is preserved by every ledger operation: `assign`,
`updateNotes` (update and partial update), and `unassign`.
-/
theorem C1_active_pair_uniqueness (db : DB) (h : PairInvariant db) :
    (∀ row db', dbInsertAssignment db row = some db' →
      (row.is_active = true → pairCount db row.patient row.doctor = 0) ∧
      PairInvariant db') ∧
    (∀ actor pId dId notes r db', assign db actor pId dId notes = (r, db') →
      PairInvariant db') ∧
    (∀ actor aid req r db', updateMapping db actor aid req = (r, db') →
      PairInvariant db') ∧
    (∀ actor aid req r db', updateMappingPartial db actor aid req = (r, db') →
      PairInvariant db') ∧
    (∀ actor aid r db', unassign db actor aid = (r, db') → PairInvariant db') := by
  have hupd : ∀ actor aid req r db', updateMapping db actor aid req = (r, db') →
      PairInvariant db' := by
    intro actor aid req r db' heq
    unfold updateMapping at heq
    split at heq
    · cases heq; exact h
    · split at heq
      · split at heq
        · cases heq
          intro p d
          unfold pairCount
          rw [countP_map_eq]
          · exact h p d
          · intro a
            by_cases hid : (a.id == aid) = true <;> simp [hid]
        · cases heq; exact h
      · cases heq; exact h
  refine ⟨?_, ?_, hupd, fun actor aid req r db' heq => hupd actor aid req r db' heq, ?_⟩
  · intro row db' hins
    refine ⟨?_, dbInsert_preserves_inv h hins⟩
    intro hact
    unfold dbInsertAssignment at hins
    split at hins
    · exact absurd hins (by simp)
    · rename_i hcond
      apply pairCount_eq_zero_of_not_exists
      cases hex : activePairExists db row.patient row.doctor
      · rfl
      · exact absurd (by simp [hact, hex]) hcond
  · intro actor pId dId notes r db' heq
    unfold assign at heq
    split at heq
    · split at heq
      · split at heq
        · split at heq
          · cases heq; exact h
          · split at heq
            · rename_i db'' hins
              cases heq
              exact dbInsert_preserves_inv h hins
            · cases heq; exact h
        · cases heq; exact h
      · cases heq; exact h
    · cases heq; exact h
  · intro actor aid r db' heq
    unfold unassign at heq
    split at heq
    · cases heq; exact h
    · split at heq
      · cases heq
        intro p d
        unfold pairCount
        calc (db.assignments.map _).countP _ ≤ db.assignments.countP _ := by
              apply countP_map_le
              intro a ha
              by_cases hid : (a.id == aid) = true
              · simp [hid] at ha
              · simpa [hid] using ha
          _ ≤ 1 := h p d
      · cases heq; exact h

/-- A concrete store for exercising the ledger theorems: one patient (uid 1),
one doctor (uid 2), no assignments yet. -/
def ledgerDb0 : DB :=
  { users :=
      [{ uid := 1, email := "p@x.com", name := "Pat", password := "pw",
         role := Role.patient },
       { uid := 2, email := "d@x.com", name := "Doc", password := "pw",
         role := Role.doctor }],
    doctors := [], patients := [], assignments := [], nextId := 3, today := 7 }

theorem ledgerDb0_inv : PairInvariant ledgerDb0 := by
  intro p d
  simp [pairCount, ledgerDb0]

/-- Witness for C1: on the concrete store `ledgerDb0` the post-state of a
concrete `assign` call still satisfies the invariant. -/
theorem C1_active_pair_uniqueness_witness :
    PairInvariant (assign ledgerDb0 9 1 2 (some "checkup")).2 :=
  (C1_active_pair_uniqueness ledgerDb0 ledgerDb0_inv).2.1
    9 1 2 (some "checkup") (assign ledgerDb0 9 1 2 (some "checkup")).1
    (assign ledgerDb0 9 1 2 (some "checkup")).2 rfl

/--
**C3.**  `assign` fails with RoleMismatch whenever the patient argument does
not resolve to a role-patient user or the doctor argument does not resolve to
a role-doctor user; it fails with Conflict whenever an active assignment
already exists for the exact pair (the roles being correct); and in every
failure case the store is unchanged — no assignment row is written.
-/
theorem C3_assign_failures (db : DB) (actor pId dId : Nat)
    (notes : Option String) (pu du : UserRec)
    (hp : findUser db pId = some pu) (hd : findUser db dId = some du) :
    ((pu.role ≠ Role.patient ∨ du.role ≠ Role.doctor) →
      assign db actor pId dId notes = (.error .roleMismatch, db)) ∧
    (pu.role = Role.patient → du.role = Role.doctor →
      activePairExists db pId dId = true →
      assign db actor pId dId notes = (.error .conflict, db)) ∧
    (∀ e, (assign db actor pId dId notes).1 = .error e →
      (assign db actor pId dId notes).2 = db) := by
  refine ⟨?_, ?_, ?_⟩
  · intro hrole
    unfold assign
    rw [hp, hd]
    dsimp only
    rcases hrole with hrole | hrole
    · rw [if_neg hrole]
    · by_cases hpu : pu.role = Role.patient
      · rw [if_pos hpu, if_neg hrole]
      · rw [if_neg hpu]
  · intro hpu hdu hex
    unfold assign
    rw [hp, hd]
    dsimp only
    rw [if_pos hpu, if_pos hdu, if_pos hex]
  · intro e
    unfold assign
    rw [hp, hd]
    dsimp only
    by_cases hpu : pu.role = Role.patient
    · rw [if_pos hpu]
      by_cases hdu : du.role = Role.doctor
      · rw [if_pos hdu]
        by_cases hex : activePairExists db pId dId = true
        · rw [if_pos hex]; intro; rfl
        · rw [if_neg hex]
          split
          · intro habs; exact absurd habs (by simp)
          · intro; rfl
      · rw [if_neg hdu]; intro; rfl
    · rw [if_neg hpu]; intro; rfl

/-- Witness for C3: giving the doctor slot the patient's own id
(`assign(p, p)`) fails with RoleMismatch on the concrete store. -/
theorem C3_assign_failures_witness :
    assign ledgerDb0 9 1 1 none = (.error .roleMismatch, ledgerDb0) :=
  (C3_assign_failures ledgerDb0 9 1 1 none
      { uid := 1, email := "p@x.com", name := "Pat", password := "pw",
        role := Role.patient }
      { uid := 1, email := "p@x.com", name := "Pat", password := "pw",
        role := Role.patient }
      (by decide) (by decide)).1 (Or.inr (by decide))

theorem find?_user_combined {l : List UserRec} {pid : Nat} {pu : UserRec}
    (h : l.find? (fun u => u.uid == pid) = some pu)
    (hR : pu.role = Role.patient) (hA : pu.is_active = true) :
    l.find? (fun u => u.uid == pid && (decide (u.role = Role.patient) && u.is_active))
      = some pu := by
  induction l with
  | nil => simp at h
  | cons y ys ih =>
    by_cases hy : (y.uid == pid) = true
    · rw [List.find?_cons_of_pos (p := fun (u : UserRec) => u.uid == pid) _ hy] at h
      injection h with h
      subst h
      rw [List.find?_cons_of_pos
        (p := fun (u : UserRec) =>
          u.uid == pid && (decide (u.role = Role.patient) && u.is_active))
        _ (by simp [hy, hR, hA])]
    · rw [List.find?_cons_of_neg (p := fun (u : UserRec) => u.uid == pid) _ hy] at h
      rw [List.find?_cons_of_neg
        (p := fun (u : UserRec) =>
          u.uid == pid && (decide (u.role = Role.patient) && u.is_active))
        _ (by simp [hy])]
      exact ih h

theorem assignment_map_update_id (l : List Assignment) (aid : Nat)
    (f : Assignment → Assignment) (h : ∀ b ∈ l, b.id ≠ aid) :
    l.map (fun b => if b.id == aid then f b else b) = l := by
  induction l with
  | nil => rfl
  | cons x xs ih =>
    simp only [List.map_cons]
    rw [if_neg (by simp [h x (by simp)])]
    rw [ih (fun b hb => h b (by simp [hb]))]

theorem activePairExists_prop {db : DB} {p d : Nat}
    (h : activePairExists db p d = false) :
    ∀ b ∈ db.assignments, ¬(b.patient = p ∧ b.doctor = d ∧ b.is_active = true) := by
  intro b hb hcontra
  obtain ⟨h1, h2, h3⟩ := hcontra
  rw [activePairExists, List.any_eq_false] at h
  exact h b hb (by simp [h1, h2, h3])

theorem assign_success (db : DB) (actor pId dId : Nat) (notes : Option String)
    (pu du : UserRec)
    (hp : findUser db pId = some pu) (hpuR : pu.role = Role.patient)
    (hd : findUser db dId = some du) (hduR : du.role = Role.doctor)
    (hnone : activePairExists db pId dId = false) :
    assign db actor pId dId notes =
      (.ok (newAssignmentRow db actor pId dId notes),
       { db with
          assignments := newAssignmentRow db actor pId dId notes :: db.assignments,
          nextId := db.nextId + 1 }) := by
  unfold assign
  rw [hp, hd]
  dsimp only
  rw [if_pos hpuR, if_pos hduR, if_neg (by rw [hnone]; simp)]
  have hc : ((newAssignmentRow db actor pId dId notes).is_active &&
      activePairExists db (newAssignmentRow db actor pId dId notes).patient
        (newAssignmentRow db actor pId dId notes).doctor) = false := by
    unfold newAssignmentRow
    dsimp only
    rw [hnone]
    simp
  unfold dbInsertAssignment
  rw [hc]
  rfl

theorem assign_conflict (db : DB) (actor pId dId : Nat) (notes : Option String)
    (pu du : UserRec)
    (hp : findUser db pId = some pu) (hpuR : pu.role = Role.patient)
    (hd : findUser db dId = some du) (hduR : du.role = Role.doctor)
    (hex : activePairExists db pId dId = true) :
    assign db actor pId dId notes = (.error .conflict, db) := by
  unfold assign
  rw [hp, hd]
  dsimp only
  rw [if_pos hpuR, if_pos hduR, if_pos hex]

theorem listForPatient_ok (db : DB) (pId : Nat) (pu : UserRec)
    (hp : findUser db pId = some pu) (hpuR : pu.role = Role.patient)
    (hpuA : pu.is_active = true) :
    listForPatient db pId =
      .ok (db.assignments.filter (fun a => a.is_active && a.patient == pId)) := by
  unfold listForPatient
  rw [find?_user_combined hp hpuR hpuA]

theorem unassign_head (db : DB) (actor : Nat) (row : Assignment)
    (rest : List Assignment) (hshape : db.assignments = row :: rest)
    (hact : row.is_active = true) (hcb : row.created_by = some actor)
    (hids : ∀ b ∈ rest, b.id ≠ row.id) :
    unassign db actor row.id =
      (.ok (), { db with assignments := { row with is_active := false } :: rest }) := by
  unfold unassign activeAssignmentById
  rw [hshape]
  rw [List.find?_cons_of_pos _ (by simp [hact])]
  dsimp only
  rw [if_pos (by simp [hcb])]
  rw [List.map_cons]
  rw [if_pos (by simp)]
  rw [assignment_map_update_id rest row.id _ hids]

/--
**C4.**  Lifecycle of an assignment, for any patient `p` (an active user with
role patient) and doctor `d` (role doctor) with no current active link:
`assign(p, d)` succeeds, and `listForPatient(p)` then shows exactly one entry
for `d`, whose notes equal the input; a second `assign(p, d)` without an
intervening unassign yields Conflict (store unchanged); after `unassign`,
`listForPatient(p)` contains no entry for `d`; and `assign(p, d)` then
succeeds again, creating a new row whose id is fresh (different from the
first row's id and from every pre-existing row's id).
-/
theorem C4_assignment_lifecycle (db : DB) (actor pId dId : Nat)
    (notes notes2 notes3 : Option String) (pu du : UserRec)
    (hp : findUser db pId = some pu) (hpuR : pu.role = Role.patient)
    (hpuA : pu.is_active = true)
    (hd : findUser db dId = some du) (hduR : du.role = Role.doctor)
    (hfresh : ∀ b ∈ db.assignments, b.id < db.nextId)
    (hnone : activePairExists db pId dId = false) :
    ∃ a db1, assign db actor pId dId notes = (.ok a, db1) ∧
      a.notes = notes ∧
      (∃ l, listForPatient db1 pId = .ok l ∧
        l.filter (fun b => b.doctor == dId) = [a]) ∧
      assign db1 actor pId dId notes2 = (.error .conflict, db1) ∧
      ∃ db2, unassign db1 actor a.id = (.ok (), db2) ∧
        (∃ l2, listForPatient db2 pId = .ok l2 ∧
          l2.filter (fun b => b.doctor == dId) = []) ∧
        ∃ a2 db3, assign db2 actor pId dId notes3 = (.ok a2, db3) ∧
          a2.id ≠ a.id ∧ (∀ b ∈ db.assignments, a2.id ≠ b.id) := by
  have hnone' := activePairExists_prop hnone
  refine ⟨newAssignmentRow db actor pId dId notes,
    { db with
        assignments := newAssignmentRow db actor pId dId notes :: db.assignments,
        nextId := db.nextId + 1 },
    assign_success db actor pId dId notes pu du hp hpuR hd hduR hnone, rfl, ?_, ?_, ?_⟩
  -- the post-assign listing shows exactly one entry for the doctor
  · refine ⟨_, listForPatient_ok _ pId pu hp hpuR hpuA, ?_⟩
    show ((newAssignmentRow db actor pId dId notes :: db.assignments).filter
        (fun a => a.is_active && a.patient == pId)).filter
        (fun b => b.doctor == dId) = [newAssignmentRow db actor pId dId notes]
    rw [List.filter_cons_of_pos (by unfold newAssignmentRow; simp)]
    rw [List.filter_cons_of_pos (by unfold newAssignmentRow; simp)]
    have hnil : (db.assignments.filter
        (fun a => a.is_active && a.patient == pId)).filter
        (fun b => b.doctor == dId) = [] := by
      rw [List.filter_eq_nil_iff]
      intro b hb
      rw [List.mem_filter] at hb
      obtain ⟨hbmem, hbp⟩ := hb
      simp only [Bool.and_eq_true, beq_iff_eq] at hbp
      simp only [beq_iff_eq]
      intro hbd
      exact hnone' b hbmem ⟨hbp.2, hbd, hbp.1⟩
    rw [hnil]
  -- re-assigning the same pair immediately is a Conflict
  · exact assign_conflict _ actor pId dId notes2 pu du hp hpuR hd hduR
      (by unfold activePairExists newAssignmentRow; simp)
  -- unassign, the listing is then empty for the doctor, and re-assign succeeds
  · have hids : ∀ b ∈ db.assignments,
        b.id ≠ (newAssignmentRow db actor pId dId notes).id := by
      intro b hb
      have := hfresh b hb
      unfold newAssignmentRow
      dsimp only
      omega
    refine ⟨_, unassign_head _ actor (newAssignmentRow db actor pId dId notes)
      db.assignments rfl rfl rfl hids, ?_, ?_⟩
    · refine ⟨_, listForPatient_ok _ pId pu hp hpuR hpuA, ?_⟩
      show (({ newAssignmentRow db actor pId dId notes with is_active := false }
          :: db.assignments).filter
          (fun a => a.is_active && a.patient == pId)).filter
          (fun b => b.doctor == dId) = []
      rw [List.filter_cons_of_neg (by simp)]
      rw [List.filter_eq_nil_iff]
      intro b hb
      rw [List.mem_filter] at hb
      obtain ⟨hbmem, hbp⟩ := hb
      simp only [Bool.and_eq_true, beq_iff_eq] at hbp
      simp only [beq_iff_eq]
      intro hbd
      exact hnone' b hbmem ⟨hbp.2, hbd, hbp.1⟩
    · have hex2 : activePairExists
          { db with
              assignments :=
                { newAssignmentRow db actor pId dId notes with is_active := false }
                  :: db.assignments,
              nextId := db.nextId + 1 } pId dId = false := by
        unfold activePairExists
        dsimp only
        rw [List.any_cons]
        dsimp only
        simp only [Bool.and_false, Bool.false_or]
        exact hnone
      refine ⟨_, _, assign_success _ actor pId dId notes3 pu du hp hpuR hd hduR hex2,
        ?_, ?_⟩
      · show ((db.nextId + 1 : Nat) ≠ db.nextId)
        omega
      · intro b hb
        have := hfresh b hb
        show ((db.nextId + 1 : Nat) ≠ b.id)
        omega

/-- Witness for C4 at a concrete input: the full lifecycle on `ledgerDb0`
(patient 1, doctor 2, actor 9). -/
theorem C4_assignment_lifecycle_witness :
    ∃ a db1, assign ledgerDb0 9 1 2 (some "checkup") = (.ok a, db1) ∧
      a.notes = some "checkup" ∧
      (∃ l, listForPatient db1 1 = .ok l ∧
        l.filter (fun b => b.doctor == 2) = [a]) ∧
      assign db1 9 1 2 (some "again") = (.error .conflict, db1) ∧
      ∃ db2, unassign db1 9 a.id = (.ok (), db2) ∧
        (∃ l2, listForPatient db2 1 = .ok l2 ∧
          l2.filter (fun b => b.doctor == 2) = []) ∧
        ∃ a2 db3, assign db2 9 1 2 none = (.ok a2, db3) ∧
          a2.id ≠ a.id ∧ (∀ b ∈ ledgerDb0.assignments, a2.id ≠ b.id) :=
  C4_assignment_lifecycle ledgerDb0 9 1 2 (some "checkup") (some "again") none
    { uid := 1, email := "p@x.com", name := "Pat", password := "pw",
      role := Role.patient }
    { uid := 2, email := "d@x.com", name := "Doc", password := "pw",
      role := Role.doctor }
    (by decide) rfl rfl (by decide) rfl
    (by intro b hb; simp [ledgerDb0] at hb) (by decide)

/-! ## Doctor profile operations -/

/-- `get_object` of `DoctorViewSet`: pk lookup through `get_queryset`, which
filters `is_active=True`. -/
def activeDoctorById (db : DB) (pid : Nat) : Option DoctorProfile :=
  db.doctors.find? (fun dp => dp.is_active && dp.id == pid)

/-- A PUT/PATCH body for `DoctorUpdateSerializer`: user-level fields
(name, phone, date_of_birth, gender, address) and profile-level fields.
`some v` means the key is present in the validated data. -/
structure DoctorPatch where
  name : Option String := none
  phone : Option String := none
  date_of_birth : Option String := none
  gender : Option String := none
  address : Option String := none
  specialization : Option String := none
  license_number : Option String := none
  experience_years : Option Nat := none
  is_available : Option Bool := none
deriving DecidableEq

/-- The `setattr` loop over user fields in `DoctorUpdateSerializer.update`
followed by `user.save()` (which re-normalizes email and name). -/
def applyUserPatch (patch : DoctorPatch) (u : UserRec) : UserRec :=
  { u with
      email := normEmail u.email,
      name := normName (patch.name.getD u.name),
      phone := match patch.phone with | some v => some v | none => u.phone,
      date_of_birth :=
        match patch.date_of_birth with | some v => some v | none => u.date_of_birth,
      gender := match patch.gender with | some v => some v | none => u.gender,
      address := match patch.address with | some v => some v | none => u.address }

/-- The `setattr` loop over profile fields followed by
`DoctorProfile.save()` (license upper-cased and stripped, specialization
stripped). -/
def applyDoctorPatch (patch : DoctorPatch) (dp : DoctorProfile) : DoctorProfile :=
  { dp with
      specialization := stripStr (patch.specialization.getD dp.specialization),
      license_number := stripStr (toUpperStr (patch.license_number.getD dp.license_number)),
      experience_years := patch.experience_years.getD dp.experience_years,
      is_available := patch.is_available.getD dp.is_available }

/-- `DoctorViewSet.update` (PUT): resolve through the active-only queryset,
allow only `created_by == request.user or doctor.user == request.user`, then
apply the patch to the linked user and the profile (both saved inside the
serializer's `transaction.atomic`). -/
def doctorUpdateView (db : DB) (actor pid : Nat) (patch : DoctorPatch) :
    Except ApiError DoctorProfile × DB :=
  match activeDoctorById db pid with
  | none => (.error .notFound, db)
  | some dp =>
    if dp.created_by == some actor || dp.userId == actor then
      (.ok (applyDoctorPatch patch dp),
       { db with
          users := db.users.map
            (fun u => if u.uid == dp.userId then applyUserPatch patch u else u),
          doctors := db.doctors.map
            (fun e => if e.id == pid then applyDoctorPatch patch e else e) })
    else (.error .forbidden, db)

/-- `DoctorViewSet.partial_update` (PATCH) carries the identical permission
check and serializer; only the required-ness of fields differs, which the
optional fields of `DoctorPatch` already express. -/
def doctorUpdateViewPatch (db : DB) (actor pid : Nat) (patch : DoctorPatch) :
    Except ApiError DoctorProfile × DB :=
  doctorUpdateView db actor pid patch

/--
**C6.**  `updateDoctor` is permitted only when the actor is the profile's
`created_by` or its linked user: for every actor who is neither, both PUT and
PATCH fail with Forbidden and the store — in particular the doctor-profile
table and the user table — is completely unchanged; conversely a successful
update implies the actor was the creator or the linked user.
-/
theorem C6_doctor_update_authorization (db : DB) (actor pid : Nat)
    (patch : DoctorPatch) (dp : DoctorProfile)
    (hfind : activeDoctorById db pid = some dp) :
    (dp.created_by ≠ some actor → dp.userId ≠ actor →
      doctorUpdateView db actor pid patch = (.error .forbidden, db) ∧
      doctorUpdateViewPatch db actor pid patch = (.error .forbidden, db)) ∧
    (∀ r db', doctorUpdateView db actor pid patch = (.ok r, db') →
      dp.created_by = some actor ∨ dp.userId = actor) := by
  constructor
  · intro hcb hu
    have : doctorUpdateView db actor pid patch = (.error .forbidden, db) := by
      unfold doctorUpdateView
      rw [hfind]
      dsimp only
      rw [if_neg (by simp [hcb, hu])]
    exact ⟨this, this⟩
  · intro r db' h
    unfold doctorUpdateView at h
    rw [hfind] at h
    dsimp only at h
    by_cases hcond : (dp.created_by == some actor || dp.userId == actor) = true
    · rcases Bool.or_eq_true_iff.mp hcond with h1 | h1
      · exact Or.inl (by simpa using h1)
      · exact Or.inr (by simpa using h1)
    · rw [if_neg hcond] at h
      exact absurd h (by simp)

/-- A concrete store for the doctor theorems: admin 1 created doctor user 2
with profile 10; user 3 is an unrelated patient. -/
def docDb0 : DB :=
  { users :=
      [{ uid := 1, email := "admin@x.com", name := "Root", password := "pw",
         role := Role.admin },
       { uid := 2, email := "d@x.com", name := "Doc", password := "pw",
         role := Role.doctor },
       { uid := 3, email := "p@x.com", name := "Pat", password := "pw",
         role := Role.patient }],
    doctors :=
      [{ id := 10, userId := 2, specialization := "cardio",
         license_number := "MD123", created_by := some 1 }],
    patients := [], assignments := [], nextId := 11, today := 7 }

/-- Witness for C6: actor 3 (neither creator 1 nor linked user 2) is refused
and the store is unchanged. -/
theorem C6_doctor_update_authorization_witness :
    doctorUpdateView docDb0 3 10 {} = (.error .forbidden, docDb0) ∧
    doctorUpdateViewPatch docDb0 3 10 {} = (.error .forbidden, docDb0) :=
  (C6_doctor_update_authorization docDb0 3 10 {}
      { id := 10, userId := 2, specialization := "cardio",
        license_number := "MD123", created_by := some 1 }
      (by decide)).1 (by decide) (by decide)

/-! ## Doctor soft-delete (`DoctorViewSet.destroy`) -/

/-- The primitive storage writes of this code base's soft-delete cascades. -/
inductive DbWrite where
  /-- `profile.soft_delete()` — clear `is_active` on a doctor profile row. -/
  | deactivateDoctorProfile (pid : Nat)
  /-- `user.is_active = False; user.save(update_fields=['is_active'])`. -/
  | deactivateUser (uid : Nat)
deriving DecidableEq

def applyWrite (db : DB) : DbWrite → DB
  | .deactivateDoctorProfile pid =>
      { db with
          doctors := db.doctors.map
            (fun e => if e.id == pid then { e with is_active := false } else e) }
  | .deactivateUser uid =>
      { db with
          users := db.users.map
            (fun u => if u.uid == uid then { u with is_active := false } else u) }

def applyWrites (db : DB) (ws : List DbWrite) : DB := ws.foldl applyWrite db

/-- The ordered storage writes `DoctorViewSet.destroy` issues after its
permission check: `doctor.soft_delete()` first, then
`doctor.user.save(update_fields=['is_active'])`. -/
def doctorDestroyWrites (dp : DoctorProfile) : List DbWrite :=
  [.deactivateDoctorProfile dp.id, .deactivateUser dp.userId]

/-- Whether `DoctorViewSet.destroy` wraps its writes in a storage
transaction.  In the source the method carries no `transaction.atomic`
decorator or context manager (unlike every create flow in
`accounts/serializers.py`), so each write commits on its own. -/
def doctorDestroyInTransaction : Bool := false

/-- `DoctorViewSet.destroy`: resolve through the active-only queryset, allow
only the creator, then issue the two deactivation writes in order. -/
def doctorDestroy (db : DB) (actor pid : Nat) : Except ApiError Unit × DB :=
  match activeDoctorById db pid with
  | none => (.error .notFound, db)
  | some dp =>
    if dp.created_by == some actor then
      (.ok (), applyWrites db (doctorDestroyWrites dp))
    else (.error .forbidden, db)

/-- The doctor profile row of `docDb0`. -/
def docProfile0 : DoctorProfile :=
  { id := 10, userId := 2, specialization := "cardio",
    license_number := "MD123", created_by := some 1 }

/--
**C7** (against).  `softDeleteDoctor` does check `actor = created_by` and, in
a failure-free run, deactivates both the profile and its user — but the two
writes are not wrapped in a transaction (`doctorDestroyInTransaction =
false`): after the first write alone commits (the state reached if the
second write fails), the concrete store has the doctor profile already
deactivated while its owning user is still active, i.e. partial application
is reachable, contradicting the claimed both-or-neither atomicity.
-/
theorem C7_doctor_destroy_not_atomic :
    doctorDestroyInTransaction = false ∧
    doctorDestroy docDb0 3 10 = (.error .forbidden, docDb0) ∧
    (doctorDestroy docDb0 1 10).1 = .ok () ∧
    (doctorDestroy docDb0 1 10).2 = applyWrites docDb0 (doctorDestroyWrites docProfile0) ∧
    (activeDoctorById
        (applyWrites docDb0 ((doctorDestroyWrites docProfile0).take 1)) 10 = none) ∧
    ((findUser
        (applyWrites docDb0 ((doctorDestroyWrites docProfile0).take 1)) 2).map
      (fun u => u.is_active) = some true) ∧
    ((findUser (doctorDestroy docDb0 1 10).2 2).map (fun u => u.is_active)
      = some false) := by
  exact ⟨rfl, rfl, rfl, rfl, rfl, rfl, rfl⟩

/-! ## Login (`LoginView.post`) -/

/-- Modelled from the spec: the authentication backend configuration
(Django `settings.py`) is not part of the sources; per the spec,
`authenticate(email, password)` performs a case-insensitive email lookup and
password verification and returns the matched user, the disabled check being
left to the caller (`LoginView` inspects `user.is_active` afterwards, which
requires the backend to return disabled users). -/
def authenticate (db : DB) (email password : String) : Option UserRec :=
  match db.users.find? (fun u => u.email == toLowerStr email) with
  | some u => if u.password == password then some u else none
  | none => none

/-- The three outcomes of `LoginView.post` for well-formed input. -/
inductive LoginResult where
  /-- 200 with user payload and fresh tokens. -/
  | success (u : UserRec)
  /-- 403 `ACCOUNT_DISABLED`. -/
  | accountDisabled
  /-- 401 `INVALID_CREDENTIALS`. -/
  | invalidCredentials
deriving DecidableEq

/-- `LoginView.post`: authenticate, then the explicit `not user.is_active`
check yielding the 403 `ACCOUNT_DISABLED` envelope, distinct from the 401
`INVALID_CREDENTIALS` envelope of failed authentication. -/
def loginPost (db : DB) (email password : String) : LoginResult :=
  match authenticate db email password with
  | some u => if u.is_active then .success u else .accountDisabled
  | none => .invalidCredentials

/--
**C8.**  For every login whose email matches a stored user and whose
password verifies, but where the user has `is_active = false`, the outcome
is the dedicated `ACCOUNT_DISABLED` denial — a constructor distinct from the
bad-credentials denial.
-/
theorem C8_disabled_account_login (db : DB) (email password : String)
    (u : UserRec)
    (hfind : db.users.find? (fun x => x.email == toLowerStr email) = some u)
    (hpw : u.password = password) (hinactive : u.is_active = false) :
    loginPost db email password = .accountDisabled ∧
    loginPost db email password ≠ .invalidCredentials := by
  have h : loginPost db email password = .accountDisabled := by
    unfold loginPost authenticate
    rw [hfind]
    dsimp only
    rw [if_pos (by simp [hpw])]
    dsimp only
    rw [if_neg (by simp [hinactive])]
  exact ⟨h, by rw [h]; intro hc; cases hc⟩

/-- A disabled user for the login witness. -/
def disabledDb0 : DB :=
  { users :=
      [{ uid := 1, email := "gone@x.com", name := "Gone", password := "pw",
         role := Role.patient, is_active := false }],
    doctors := [], patients := [], assignments := [], nextId := 2, today := 0 }

/-- Witness for C8: correct password against a deactivated account yields
`ACCOUNT_DISABLED`, not `INVALID_CREDENTIALS`. -/
theorem C8_disabled_account_login_witness :
    loginPost disabledDb0 "Gone@X.com" "pw" = .accountDisabled ∧
    loginPost disabledDb0 "Gone@X.com" "pw" ≠ .invalidCredentials :=
  C8_disabled_account_login disabledDb0 "Gone@X.com" "pw"
    { uid := 1, email := "gone@x.com", name := "Gone", password := "pw",
      role := Role.patient, is_active := false }
    (by decide) rfl rfl

/--
**C9.**  An assignment update by its creator can change only the notes
field: whatever keys the request supplies, after `update` (and the
delegating `partial_update`) every row's `patient`, `doctor` and
`assigned_date` (and id) are exactly as before the call.
-/
theorem C9_mapping_update_frame (db : DB) (actor aid : Nat)
    (req : MappingRequest) (a : Assignment) (db' : DB)
    (h : updateMapping db actor aid req = (.ok a, db')) :
    db'.assignments.map (fun b => (b.id, b.patient, b.doctor, b.assigned_date))
      = db.assignments.map (fun b => (b.id, b.patient, b.doctor, b.assigned_date)) ∧
    updateMappingPartial db actor aid req = updateMapping db actor aid req := by
  refine ⟨?_, rfl⟩
  unfold updateMapping at h
  split at h
  · exact absurd h (by simp)
  · split at h
    · split at h
      · simp only [Prod.mk.injEq] at h
        obtain ⟨-, hdb⟩ := h
        subst hdb
        dsimp only
        rw [List.map_map]
        apply List.map_congr_left
        intro b _
        by_cases hid : b.id = aid <;> simp [hid]
      · simp only [Prod.mk.injEq] at h
        obtain ⟨-, hdb⟩ := h
        subst hdb
        rfl
    · exact absurd h (by simp)

/-- Store with one assignment (id 20) created by user 1. -/
def mapDb0 : DB :=
  { users := [], doctors := [], patients := [],
    assignments :=
      [{ id := 20, patient := 3, doctor := 2, notes := some "old",
         assigned_date := 5, created_by := some 1 }],
    nextId := 21, today := 9 }

/-- Witness for C9: a request that tries to overwrite patient, doctor,
assigned_date and notes changes none of the immutable fields. -/
theorem C9_mapping_update_frame_witness :
    (updateMapping mapDb0 1 20
        { patient := some 99, doctor := some 98, notes := some (some "new"),
          assigned_date := some 77 }).2.assignments.map
        (fun b => (b.id, b.patient, b.doctor, b.assigned_date))
      = mapDb0.assignments.map (fun b => (b.id, b.patient, b.doctor, b.assigned_date)) ∧
    updateMappingPartial mapDb0 1 20
        { patient := some 99, doctor := some 98, notes := some (some "new"),
          assigned_date := some 77 }
      = updateMapping mapDb0 1 20
        { patient := some 99, doctor := some 98, notes := some (some "new"),
          assigned_date := some 77 } :=
  C9_mapping_update_frame mapDb0 1 20
    { patient := some 99, doctor := some 98, notes := some (some "new"),
      assigned_date := some 77 }
    { id := 20, patient := 3, doctor := 2, notes := some "new",
      assigned_date := 5, created_by := some 1 }
    (updateMapping mapDb0 1 20
        { patient := some 99, doctor := some 98, notes := some (some "new"),
          assigned_date := some 77 }).2
    rfl

/-! ## Patient profile detail operations (`PatientViewSet`) -/

/-- `get_object` of `PatientViewSet`: pk lookup through `get_queryset`,
which filters `is_active=True, created_by=request.user`. -/
def patientGetObject (db : DB) (actor pid : Nat) : Option PatientProfile :=
  db.patients.find?
    (fun pp => pp.is_active && pp.created_by == some actor && pp.id == pid)

/-- A PUT/PATCH body for `PatientUpdateSerializer`. -/
structure PatientPatch where
  name : Option String := none
  phone : Option String := none
  date_of_birth : Option String := none
  gender : Option String := none
  address : Option String := none
  blood_group : Option String := none
  medical_history : Option String := none
  emergency_contact : Option String := none
  allergies : Option String := none
deriving DecidableEq

/-- The user-field `setattr` loop of `PatientUpdateSerializer.update` plus
`user.save()` normalization (same shape as the doctor's). -/
def applyUserPatchP (patch : PatientPatch) (u : UserRec) : UserRec :=
  { u with
      email := normEmail u.email,
      name := normName (patch.name.getD u.name),
      phone := match patch.phone with | some v => some v | none => u.phone,
      date_of_birth :=
        match patch.date_of_birth with | some v => some v | none => u.date_of_birth,
      gender := match patch.gender with | some v => some v | none => u.gender,
      address := match patch.address with | some v => some v | none => u.address }

/-- The profile-field `setattr` loop (no save-time normalization on
`PatientProfile`). -/
def applyPatientPatch (patch : PatientPatch) (pp : PatientProfile) : PatientProfile :=
  { pp with
      blood_group := match patch.blood_group with | some v => some v | none => pp.blood_group,
      medical_history :=
        match patch.medical_history with | some v => some v | none => pp.medical_history,
      emergency_contact :=
        match patch.emergency_contact with | some v => some v | none => pp.emergency_contact,
      allergies := match patch.allergies with | some v => some v | none => pp.allergies }

/-- `PatientViewSet.retrieve`. -/
def patientRetrieve (db : DB) (actor pid : Nat) : Except ApiError PatientProfile :=
  match patientGetObject db actor pid with
  | none => .error .notFound
  | some pp => .ok pp

/-- `PatientViewSet.update` / `partial_update`: resolve through the scoped
queryset, then apply the patch with **no** explicit ownership check. -/
def patientUpdateView (db : DB) (actor pid : Nat) (patch : PatientPatch) :
    Except ApiError PatientProfile × DB :=
  match patientGetObject db actor pid with
  | none => (.error .notFound, db)
  | some pp =>
      (.ok (applyPatientPatch patch pp),
       { db with
          users := db.users.map
            (fun u => if u.uid == pp.userId then applyUserPatchP patch u else u),
          patients := db.patients.map
            (fun e => if e.id == pid then applyPatientPatch patch e else e) })

/-- `PatientViewSet.destroy`: resolve through the scoped queryset, then
soft-delete profile and deactivate user with no explicit ownership check. -/
def patientDestroy (db : DB) (actor pid : Nat) : Except ApiError Unit × DB :=
  match patientGetObject db actor pid with
  | none => (.error .notFound, db)
  | some pp =>
      (.ok (),
       { db with
          users := db.users.map
            (fun u => if u.uid == pp.userId then { u with is_active := false } else u),
          patients := db.patients.map
            (fun e => if e.id == pid then { e with is_active := false } else e) })

/--
**C10.**  Every patient detail operation resolves its target through the
queryset scoped to `is_active = true` and `created_by = actor`: whatever
`get_object` returns satisfies both; if the profile with the requested id is
inactive or was not created by the actor, retrieve, update and soft-delete
all answer NotFound with the store unchanged; and a successful update or
soft-delete implies the resolved profile was created by the actor — the
missing explicit ownership check is subsumed by the queryset scoping.
-/
theorem C10_patient_scope_authorization (db : DB) (actor pid : Nat)
    (patch : PatientPatch) :
    (∀ pp, patientGetObject db actor pid = some pp →
      pp.is_active = true ∧ pp.created_by = some actor) ∧
    (∀ pp, pp ∈ db.patients → pp.id = pid →
      (pp.created_by ≠ some actor ∨ pp.is_active = false) →
      (∀ q ∈ db.patients, q.id = pid → q = pp) →
      patientRetrieve db actor pid = .error .notFound ∧
      patientUpdateView db actor pid patch = (.error .notFound, db) ∧
      patientDestroy db actor pid = (.error .notFound, db)) ∧
    (∀ r db', patientUpdateView db actor pid patch = (.ok r, db') →
      ∃ pp, patientGetObject db actor pid = some pp ∧ pp.created_by = some actor) ∧
    (∀ r db', patientDestroy db actor pid = (.ok r, db') →
      ∃ pp, patientGetObject db actor pid = some pp ∧ pp.created_by = some actor) := by
  have hscope : ∀ pp, patientGetObject db actor pid = some pp →
      pp.is_active = true ∧ pp.created_by = some actor := by
    intro pp h
    unfold patientGetObject at h
    have := List.find?_some h
    simp only [Bool.and_eq_true, beq_iff_eq] at this
    exact ⟨this.1.1, this.1.2⟩
  refine ⟨hscope, ?_, ?_, ?_⟩
  · intro pp hmem hid hbad huniq
    have hnone : patientGetObject db actor pid = none := by
      unfold patientGetObject
      rw [List.find?_eq_none]
      intro q hq
      simp only [Bool.and_eq_true, beq_iff_eq, not_and]
      intro hqa hqc
      have hq_eq : q = pp := huniq q hq hqc
      subst hq_eq
      rcases hbad with hbad | hbad
      · exact absurd hqa.2 hbad
      · exact absurd hqa.1 (by rw [hbad]; simp)
    refine ⟨?_, ?_, ?_⟩
    · unfold patientRetrieve
      rw [hnone]
    · unfold patientUpdateView
      rw [hnone]
    · unfold patientDestroy
      rw [hnone]
  · intro r db' h
    unfold patientUpdateView at h
    cases hobj : patientGetObject db actor pid with
    | none => rw [hobj] at h; exact absurd h (by simp)
    | some pp => exact ⟨pp, rfl, (hscope pp hobj).2⟩
  · intro r db' h
    unfold patientDestroy at h
    cases hobj : patientGetObject db actor pid with
    | none => rw [hobj] at h; exact absurd h (by simp)
    | some pp => exact ⟨pp, rfl, (hscope pp hobj).2⟩

/-- Store with a single patient profile (id 30) created by user 1. -/
def patDb0 : DB :=
  { users :=
      [{ uid := 1, email := "admin@x.com", name := "Root", password := "pw",
         role := Role.admin },
       { uid := 4, email := "p4@x.com", name := "Pat", password := "pw",
         role := Role.patient }],
    doctors := [],
    patients := [{ id := 30, userId := 4, created_by := some 1 }],
    assignments := [], nextId := 31, today := 0 }

/-- Witness for C10: to actor 2 (not the creator) profile 30 is invisible —
all three detail operations answer NotFound and change nothing. -/
theorem C10_patient_scope_authorization_witness :
    patientRetrieve patDb0 2 30 = .error .notFound ∧
    patientUpdateView patDb0 2 30 {} = (.error .notFound, patDb0) ∧
    patientDestroy patDb0 2 30 = (.error .notFound, patDb0) :=
  (C10_patient_scope_authorization patDb0 2 30 {}).2.1
    { id := 30, userId := 4, created_by := some 1 }
    (by decide) rfl (Or.inl (by decide))
    (by
      intro q hq hqid
      simp only [patDb0, List.mem_singleton] at hq
      exact hq)

/-! ## Doctor creation and license uniqueness (`DoctorCreateSerializer`) -/

/-- `DoctorCreateSerializer.validate_email`: reject when any user (active or
not; `User.objects` is the plain manager) already holds the lower-cased
email, otherwise return the lower-cased value. -/
def validate_email_doctor (db : DB) (value : String) : Except ApiError String :=
  if db.users.any (fun u => u.email == toLowerStr value) then .error .conflict
  else .ok (toLowerStr value)

/-- `DoctorCreateSerializer.validate_license_number`:
`DoctorProfile.objects.filter(license_number=value.upper()).exists()`.
`DoctorProfile.objects` is the `ActiveManager` inherited from
`AbstractActive` (core/models.py), whose `get_queryset` silently filters
`is_active=True`, so this pre-check sees only active doctors.  The value is
upper-cased but not stripped before the comparison. -/
def validate_license_number (db : DB) (value : String) : Except ApiError String :=
  if (db.doctors.filter (fun dp => dp.is_active)).any
      (fun dp => dp.license_number == toUpperStr value) then .error .conflict
  else .ok (toUpperStr value)

/-- Storage-layer insert through the model-level `unique=True` on
`license_number`: the column constraint covers every row, soft-deleted
included (no `is_active` condition). -/
def dbInsertDoctor (db : DB) (dp : DoctorProfile) : Option DB :=
  if db.doctors.any (fun e => e.license_number == dp.license_number) then none
  else some { db with doctors := dp :: db.doctors, nextId := db.nextId + 1 }

/--
`DoctorViewSet.create` with `DoctorCreateSerializer`: field validators
(email and license pre-checks), then inside `transaction.atomic` a new user
with role doctor (`create_user`) and the profile
(`DoctorProfile.save` upper-cases and strips the license) through the
storage constraint; an `IntegrityError` rolls the whole transaction back.
-/
def createDoctor (db : DB) (actor : Nat) (email name password : String)
    (specialization license : String) (expYears : Nat) (isAvail : Bool) :
    Except ApiError DoctorProfile × DB :=
  match validate_email_doctor db email, validate_license_number db license with
  | .ok e, .ok lic =>
      if email == "" || name == "" then (.error .validationError, db)
      else
        let u : UserRec :=
          { uid := db.nextId, email := normEmail e, name := normName name,
            password := password, role := Role.doctor }
        let db1 : DB := { db with users := u :: db.users, nextId := db.nextId + 1 }
        let dp : DoctorProfile :=
          { id := db1.nextId, userId := u.uid,
            specialization := stripStr specialization,
            license_number := stripStr (toUpperStr lic),
            experience_years := expYears, is_available := isAvail,
            is_active := true, created_by := some actor }
        match dbInsertDoctor db1 dp with
        | some db2 => (.ok dp, db2)
        | none => (.error .integrityError, db)
  | .error err, _ => (.error err, db)
  | _, .error err => (.error err, db)

/-- Store holding a soft-deleted doctor with license "MD123". -/
def licDb0 : DB :=
  { users :=
      [{ uid := 1, email := "admin@x.com", name := "Root", password := "pw",
         role := Role.admin }],
    doctors :=
      [{ id := 10, userId := 2, specialization := "cardio",
         license_number := "MD123", is_active := false, created_by := some 1 }],
    patients := [], assignments := [], nextId := 11, today := 0 }

/-- Store holding an active doctor with license "MD123". -/
def licDb1 : DB :=
  { users :=
      [{ uid := 1, email := "admin@x.com", name := "Root", password := "pw",
         role := Role.admin }],
    doctors :=
      [{ id := 10, userId := 2, specialization := "cardio",
         license_number := "MD123", is_active := true, created_by := some 1 }],
    patients := [], assignments := [], nextId := 11, today := 0 }

/--
**C5** (against, as stated).  The uniqueness pre-check is *not* performed
against all doctors: with a soft-deleted doctor holding "MD123",
`validate_license_number` accepts "md123" (no Conflict), because
`DoctorProfile.objects` filters to active rows; the attempt then dies at the
storage-level unique constraint as an integrity error, not a Conflict.
Likewise the value is *not* trimmed before the pre-check: with an active
doctor holding "MD123", the input "md123 " (trailing blank) passes the
pre-check and only fails at storage after save-time stripping.
-/
theorem C5_license_uniqueness_counterexample :
    (licDb0.doctors.any (fun dp => !dp.is_active && dp.license_number == "MD123")) = true ∧
    validate_license_number licDb0 "md123" = .ok "MD123" ∧
    (createDoctor licDb0 1 "d2@x.com" "Doc Two" "pw" "cardio" "md123" 3 true).1
      = .error .integrityError ∧
    (createDoctor licDb0 1 "d2@x.com" "Doc Two" "pw" "cardio" "md123" 3 true).2
      = licDb0 ∧
    validate_license_number licDb1 "md123 " = .ok "MD123 " ∧
    (createDoctor licDb1 1 "d2@x.com" "Doc Two" "pw" "cardio" "md123 " 3 true).1
      = .error .integrityError :=
  ⟨rfl, rfl, rfl, rfl, rfl, rfl⟩

/--
**C5** (amended).  Creating a second doctor whose license equals an *active*
doctor's stored license after upper-casing yields Conflict with no row
written; the serializer pre-check accepts a value exactly when no active
doctor holds its upper-cased form (soft-deleted doctors are invisible to
it); the storage unique constraint, by contrast, rejects a duplicate against
every stored row, soft-deleted included; and the stored license number of a
successfully created doctor is the upper-cased, stripped input.
-/
theorem C5_license_uniqueness_amended (db : DB) (actor : Nat)
    (email name password specialization license : String) (expYears : Nat)
    (isAvail : Bool) :
    ((∃ dp ∈ db.doctors, dp.is_active = true ∧
        dp.license_number = toUpperStr license) →
      createDoctor db actor email name password specialization license expYears isAvail
        = (.error .conflict, db)) ∧
    (validate_license_number db license = .ok (toUpperStr license) ↔
      ∀ dp ∈ db.doctors, dp.is_active = true → dp.license_number ≠ toUpperStr license) ∧
    (∀ dp db', dbInsertDoctor db dp = some db' →
      ∀ e ∈ db.doctors, e.license_number ≠ dp.license_number) ∧
    (∀ dp db',
      createDoctor db actor email name password specialization license expYears isAvail
        = (.ok dp, db') →
      dp.license_number = stripStr (toUpperStr (toUpperStr license))) := by
  have hlic_err : (∃ dp ∈ db.doctors, dp.is_active = true ∧
      dp.license_number = toUpperStr license) →
      validate_license_number db license = .error .conflict := by
    intro ⟨dp, hmem, hact, hlic⟩
    unfold validate_license_number
    rw [if_pos]
    rw [List.any_eq_true]
    refine ⟨dp, ?_, by simp [hlic]⟩
    rw [List.mem_filter]
    exact ⟨hmem, hact⟩
  refine ⟨?_, ?_, ?_, ?_⟩
  · intro hex
    unfold createDoctor
    rw [hlic_err hex]
    unfold validate_email_doctor
    by_cases hmail : (db.users.any (fun u => u.email == toLowerStr email)) = true
    · rw [if_pos hmail]
    · rw [if_neg hmail]
  · constructor
    · intro h dp hmem hact hlic
      unfold validate_license_number at h
      split at h
      · exact absurd h (by simp)
      · rename_i hcond
        apply hcond
        rw [List.any_eq_true]
        refine ⟨dp, ?_, by simp [hlic]⟩
        rw [List.mem_filter]
        exact ⟨hmem, hact⟩
    · intro h
      unfold validate_license_number
      rw [if_neg]
      intro hcond
      rw [List.any_eq_true] at hcond
      obtain ⟨dp, hmem, hlic⟩ := hcond
      rw [List.mem_filter] at hmem
      exact h dp hmem.1 hmem.2 (by simpa using hlic)
  · intro dp db' hins e hmem hlic
    unfold dbInsertDoctor at hins
    split at hins
    · exact absurd hins (by simp)
    · rename_i hcond
      apply hcond
      rw [List.any_eq_true]
      exact ⟨e, hmem, by simp [hlic]⟩
  · intro dp db' h
    unfold createDoctor at h
    split at h
    · rename_i eV lV hemailEq hlicEq
      have hlv : lV = toUpperStr license := by
        unfold validate_license_number at hlicEq
        split at hlicEq
        · exact absurd hlicEq (by simp)
        · simp only [Except.ok.injEq] at hlicEq
          exact hlicEq.symm
      split at h
      · exact absurd h (by simp)
      · dsimp only at h
        split at h
        · simp only [Prod.mk.injEq, Except.ok.injEq] at h
          rw [← h.1]
          dsimp only
          rw [hlv]
        · exact absurd h (by simp)
    · exact absurd h (by simp)
    · exact absurd h (by simp)

/-- Witness for C5 (amended): an exact-case duplicate of an active doctor's
license is refused with Conflict and nothing is written. -/
theorem C5_license_uniqueness_amended_witness :
    createDoctor licDb1 1 "d2@x.com" "Doc Two" "pw" "cardio" "md123" 3 true
      = (.error .conflict, licDb1) :=
  (C5_license_uniqueness_amended licDb1 1 "d2@x.com" "Doc Two" "pw" "cardio"
      "md123" 3 true).1
    ⟨{ id := 10, userId := 2, specialization := "cardio",
       license_number := "MD123", is_active := true, created_by := some 1 },
     by decide, rfl, by decide⟩

end Healthcare
